import Mathlib

/-!
# `stdImpl::span` and `stdImpl::SpanIterator`

A shallow embedding of `src/ds/span/span.hpp` (and of its driver
`src/ds/span/main.cpp`).

Conventions of the embedding

* A pointer `T*` is an element-granular address, an `Int`: `p + 1` is the
  address of the element after `p`, and `nullptr` is `0`.  Pointer arithmetic
  is exact.
* `std::size_t` values are `Nat`s, `std::ptrdiff_t` values are `Int`s.  Where
  the source converts into one of these types, or computes a value of one of
  them, the 64-bit reduction is written out (`to_size_t`, `to_ptrdiff_t`).
* A reference `T&` is the address of the element it designates (`Ref`); its
  value is read from a `Memory`.
* A member function that mutates its object returns the object's new state;
  a `const` member function for which the object's state afterwards matters
  returns a `Call`, the returned value together with that state.
-/

set_option autoImplicit false

namespace stdImpl

/-! ## Machine integers -/

/-- Largest value of `std::ptrdiff_t` (64-bit). -/
def PTRDIFF_MAX : Int := 2 ^ 63 - 1

/-- Smallest value of `std::ptrdiff_t` (64-bit). -/
def PTRDIFF_MIN : Int := -(2 ^ 63)

/-- Conversion of an integer to `std::size_t`: reduction modulo `2^64`. -/
def to_size_t (z : Int) : Nat := (z % 2 ^ 64).toNat

/-- Conversion of an integer to `std::ptrdiff_t`: the two's complement
representative in `[-2^63, 2^63)`. -/
def to_ptrdiff_t (z : Int) : Int := (z + 2 ^ 63) % 2 ^ 64 - 2 ^ 63

/-- The constant `std::dynamic_extent`, that is `std::size_t(-1)`. -/
def dynamic_extent : Nat := 2 ^ 64 - 1

/-! ## Memory, references, external ranges -/

/-- The elements that are live, by address. -/
abbrev Memory (T : Type) := Int → Option T

/-- A reference `T&`: the address of the designated element. -/
structure Ref (T : Type) where
  addr : Int
deriving DecidableEq

/-- Reading through a reference; `none` when no live element is there. -/
def Ref.read {T : Type} (m : Memory T) (r : Ref T) : Option T := m r.addr

/-- A contiguous iterator `It` (a pointer, a vector iterator): what
`std::to_address` returns for it. -/
structure contiguous_iterator (T : Type) where
  addr : Int
deriving DecidableEq

/-- The function `std::to_address(it)`. -/
def to_address {T : Type} (it : contiguous_iterator T) : Int := it.addr

/-- The expression `last - first` on contiguous iterators, a `difference_type`. -/
def contiguous_iterator.op_diff {T : Type} (last first : contiguous_iterator T) : Int :=
  to_ptrdiff_t (last.addr - first.addr)

/-- A contiguous range (an array, a `std::vector`): its elements, laid out
from address `base` on. -/
structure contiguous_range (T : Type) where
  base : Int
  elems : List T

/-- The member `range.data()`. -/
def contiguous_range.data {T : Type} (range : contiguous_range T) : Int := range.base

/-- The member `range.size()`. -/
def contiguous_range.size {T : Type} (range : contiguous_range T) : Nat := range.elems.length

/-- The memory in which exactly the elements of the range are live. -/
def contiguous_range.memory {T : Type} (range : contiguous_range T) : Memory T :=
  fun a => if a < range.base then none else range.elems[(a - range.base).toNat]?

/-- The contiguous iterator at position `i` of the range (`range.begin() + i`). -/
def contiguous_range.cursor_at {T : Type} (range : contiguous_range T) (i : Nat) :
    contiguous_iterator T :=
  ⟨range.base + i⟩

/-! ## `span` -/

/-- The type of the member `size_`:
`std::conditional_t<(extent == std::dynamic_extent), size_type,
std::integral_constant<size_type, extent>>`.  For the dynamic extent it holds a
`size_type`; for a static extent it is an empty `integral_constant`. -/
inductive size_field (Extent : Nat) where
  | runtime (h : Extent = dynamic_extent) (value : Nat)
  | constant (h : Extent ≠ dynamic_extent)

/-- The class `span<T, Extent>`: its two data members. -/
structure span (T : Type) (Extent : Nat) where
  ptr_ : Int
  size_ : size_field Extent

/-- What a constructor throws. -/
inductive exception where
  | length_error (what : String)
deriving DecidableEq

/-- Constructor `span(It first, size_type count)`.  Its initialiser
`size_(count)` is well-formed only when `size_` is a `size_type`, so the
constructor exists for the dynamic extent. -/
def span.ctor_first_count (T : Type) (first : contiguous_iterator T) (count : Nat) :
    span T dynamic_extent :=
  { ptr_ := to_address first, size_ := .runtime rfl count }

/-- Constructor `span(It first, It end)`.  The initialiser `size_(end - first)`
converts the `difference_type` to `size_type`. -/
def span.ctor_first_end (T : Type) (first end_ : contiguous_iterator T) :
    span T dynamic_extent :=
  { ptr_ := to_address first, size_ := .runtime rfl (to_size_t (end_.op_diff first)) }

/-- Constructor `span(It first)`.  Its specifier
`explicit(extent != std::dynamic_extent)` decides only whether the constructor
is explicit, so it is declared for every extent.  It initialises `ptr_` alone:
for a static extent `size_` is the empty `integral_constant`, for the dynamic
extent `size_` is a `size_type` left uninitialised, whose value `indeterminate`
is whatever the storage of the object held. -/
def span.ctor_first (T : Type) (Extent : Nat) (first : contiguous_iterator T)
    (indeterminate : Nat) : span T Extent :=
  if h : Extent ≠ dynamic_extent then
    { ptr_ := to_address first, size_ := .constant h }
  else
    { ptr_ := to_address first, size_ := .runtime (Decidable.of_not_not h) indeterminate }

/-- Constructor `span(Range&& range)`. -/
def span.ctor_range (T : Type) (Extent : Nat) (range : contiguous_range T) :
    Except exception (span T Extent) :=
  let ptr_ := range.data
  if h : Extent ≠ dynamic_extent then
    if Extent > range.size then
      .error (.length_error "Range size is smaller than static extent -> UB")
    else
      .ok { ptr_ := ptr_, size_ := .constant h }
  else
    .ok { ptr_ := ptr_, size_ := .runtime (Decidable.of_not_not h) range.size }

/-- Member `size()`. -/
def span.size {T : Type} {Extent : Nat} (s : span T Extent) : Nat :=
  if Extent ≠ dynamic_extent then
    Extent
  else
    match s.size_ with
    | .runtime _ value => value
    | .constant _ => Extent

/-- Member `data()`. -/
def span.data {T : Type} {Extent : Nat} (s : span T Extent) : Int := s.ptr_

/-- Member `operator[](size_type index)`: `*(ptr_ + index)`. -/
def span.op_index {T : Type} {Extent : Nat} (s : span T Extent) (index : Nat) : Ref T :=
  ⟨s.ptr_ + index⟩

/-- Member `front()`: `*(ptr_)`. -/
def span.front {T : Type} {Extent : Nat} (s : span T Extent) : Ref T := ⟨s.ptr_⟩

/-- Member `back()`: `*(ptr_ + size() - 1)`. -/
def span.back {T : Type} {Extent : Nat} (s : span T Extent) : Ref T :=
  ⟨s.ptr_ + s.size - 1⟩

/-! ## `SpanIterator` -/

/-- The class `SpanIterator<T>`: its data member. -/
structure SpanIterator (T : Type) where
  currentPtr_ : Int
deriving DecidableEq

/-- A call of a `const` member function: the value returned, and the state of
the object the function was called on, afterwards. -/
structure Call (S R : Type) where
  ret : R
  self : S

/-- Member `operator*()`: `*currentPtr_`. -/
def SpanIterator.op_deref {T : Type} (it : SpanIterator T) : Ref T := ⟨it.currentPtr_⟩

/-- Member `operator++()`: the state after `currentPtr_++`; the reference
returned is to the object itself. -/
def SpanIterator.op_pre_inc {T : Type} (it : SpanIterator T) : SpanIterator T :=
  { it with currentPtr_ := it.currentPtr_ + 1 }

/-- Member `operator--()`: the state after `currentPtr_--`. -/
def SpanIterator.op_pre_dec {T : Type} (it : SpanIterator T) : SpanIterator T :=
  { it with currentPtr_ := it.currentPtr_ - 1 }

/-- Member `operator+=(difference_type n)`: the state after `currentPtr_ += n`. -/
def SpanIterator.op_plus_assign {T : Type} (it : SpanIterator T) (n : Int) : SpanIterator T :=
  { it with currentPtr_ := it.currentPtr_ + n }

/-- Member `operator+(difference_type n) const`. -/
def SpanIterator.op_plus {T : Type} (it : SpanIterator T) (n : Int) :
    Call (SpanIterator T) (SpanIterator T) :=
  let tempIt := it
  let tempIt := tempIt.op_plus_assign n
  { ret := tempIt, self := it }

/-- Member `operator-=(difference_type n)`: the state after `currentPtr_ -= n`. -/
def SpanIterator.op_minus_assign {T : Type} (it : SpanIterator T) (n : Int) : SpanIterator T :=
  { it with currentPtr_ := it.currentPtr_ - n }

/-- Member `operator-(difference_type n) const`. -/
def SpanIterator.op_minus {T : Type} (it : SpanIterator T) (n : Int) :
    Call (SpanIterator T) (SpanIterator T) :=
  let tempIt := it
  let tempIt := tempIt.op_minus_assign n
  { ret := tempIt, self := it }

/-- Member `operator-(const SpanIterator& other) const`, a `difference_type`. -/
def SpanIterator.op_diff {T : Type} (it other : SpanIterator T) : Int :=
  to_ptrdiff_t (it.currentPtr_ - other.currentPtr_)

/-- Member `operator[](difference_type n) const`: `*(currentPtr_ + n)`. -/
def SpanIterator.op_index {T : Type} (it : SpanIterator T) (n : Int) :
    Call (SpanIterator T) (Ref T) :=
  { ret := ⟨it.currentPtr_ + n⟩, self := it }

/-- Member `operator==`. -/
def SpanIterator.op_eq {T : Type} (it other : SpanIterator T) : Bool :=
  it.currentPtr_ == other.currentPtr_

/-- Member `operator!=`. -/
def SpanIterator.op_ne {T : Type} (it other : SpanIterator T) : Bool :=
  !(it.currentPtr_ == other.currentPtr_)

/-- Member `begin()`. -/
def span.begin {T : Type} {Extent : Nat} (s : span T Extent) : SpanIterator T :=
  ⟨s.ptr_⟩

/-- Member `end()`. -/
def span.end_ {T : Type} {Extent : Nat} (s : span T Extent) : SpanIterator T :=
  ⟨s.ptr_ + s.size⟩

/-! ## The range-based `for` loop of `main` -/

/-- The loop `for (auto elem : s)`, from a cursor `it` up to `end_`: while
`it != end_`, evaluate `*it`, then `++it`.  The result lists the references
obtained by `*it`, in order; `fuel` bounds the number of evaluations of the
loop condition, and `none` means the bound was reached. -/
def range_for_loop {T : Type} : Nat → SpanIterator T → SpanIterator T → Option (List (Ref T))
  | 0, _, _ => none
  | fuel + 1, it, end_ =>
    if it.op_ne end_ then
      (range_for_loop fuel it.op_pre_inc end_).map (fun rest => it.op_deref :: rest)
    else
      some []

/-- The statement `for (auto elem : s)`: the loop from `s.begin()` to `s.end()`. -/
def range_for {T : Type} {Extent : Nat} (fuel : Nat) (s : span T Extent) : Option (List (Ref T)) :=
  range_for_loop fuel s.begin s.end_

/-! ## Specification-side definitions -/

/-- Indexed access as the specification words it: `cursor[n]` is `*(cursor + n)`. -/
def SpanIterator.op_index_spec {T : Type} (it : SpanIterator T) (n : Int) : Ref T :=
  (it.op_plus n).ret.op_deref

/-- The invariant of the specification: `data()` is null only if `size()` is 0. -/
def span.invariant {T : Type} {Extent : Nat} (s : span T Extent) : Prop :=
  s.data = 0 → s.size = 0

/-! ## Auxiliary facts -/

/-- A value in the range of `std::ptrdiff_t` converts to itself. -/
theorem to_ptrdiff_t_of_fits (z : Int) (hlo : PTRDIFF_MIN ≤ z) (hhi : z ≤ PTRDIFF_MAX) :
    to_ptrdiff_t z = z := by
  unfold PTRDIFF_MIN at hlo
  unfold PTRDIFF_MAX at hhi
  unfold to_ptrdiff_t
  omega

/-- A non-negative value below `2^64` converts to itself as a `std::size_t`. -/
theorem to_size_t_of_fits (z : Int) (hlo : 0 ≤ z) (hhi : z < 2 ^ 64) :
    (to_size_t z : Int) = z := by
  unfold to_size_t
  omega

/-- Converting to `std::ptrdiff_t` and then to `std::size_t` is converting to
`std::size_t`. -/
theorem to_size_t_to_ptrdiff_t (z : Int) : to_size_t (to_ptrdiff_t z) = to_size_t z := by
  unfold to_size_t to_ptrdiff_t
  omega

/-- The member `size()` of a dynamic-extent span is its stored length. -/
theorem size_runtime {T : Type} (p : Int) (n : Nat) :
    (span.mk p (size_field.runtime rfl n) : span T dynamic_extent).size = n := by
  simp [span.size]

/-- The member `size()` of a static-extent span is the extent. -/
theorem size_static {T : Type} {Extent : Nat} (h : Extent ≠ dynamic_extent)
    (s : span T Extent) : s.size = Extent := by
  simp [span.size, h]

/-- Reading the memory of a range at the address of its element `i`. -/
theorem memory_at {T : Type} (range : contiguous_range T) (i : Nat) :
    range.memory (range.base + i) = range.elems[i]? := by
  have h : ¬ (range.base + (i : Int) < range.base) := by omega
  simp [contiguous_range.memory, h]

/-- The loop from a cursor at `p` to the cursor `n` elements further on ends
whenever the fuel exceeds `n`, having dereferenced the cursors at
`p, p + 1, ..., p + n - 1` in this order. -/
theorem range_for_loop_trace {T : Type} (n : Nat) :
    ∀ (fuel : Nat) (p : Int), n < fuel →
      range_for_loop fuel (⟨p⟩ : SpanIterator T) ⟨p + n⟩
        = some ((List.range n).map (fun (i : Nat) => (⟨p + (i : Int)⟩ : Ref T))) := by
  induction n with
  | zero =>
    intro fuel p hfuel
    obtain ⟨f, rfl⟩ : ∃ f, fuel = f + 1 := ⟨fuel - 1, by omega⟩
    simp [range_for_loop, SpanIterator.op_ne]
  | succ n ih =>
    intro fuel p hfuel
    obtain ⟨f, rfl⟩ : ∃ f, fuel = f + 1 := ⟨fuel - 1, by omega⟩
    have hne : (⟨p⟩ : SpanIterator T).op_ne ⟨p + ((n + 1 : Nat) : Int)⟩ = true := by
      simp only [SpanIterator.op_ne, Bool.not_eq_true', beq_eq_false_iff_ne, ne_eq]
      omega
    have hend : p + ((n + 1 : Nat) : Int) = p + 1 + (n : Int) := by omega
    have hrest := ih f (p + 1) (by omega)
    rw [range_for_loop, if_pos hne, SpanIterator.op_pre_inc, hend, hrest]
    simp only [Option.map_some', SpanIterator.op_deref, List.range_succ_eq_map, List.map_cons,
      List.map_map, Nat.cast_zero, add_zero, Option.some.injEq, List.cons.injEq, true_and]
    apply List.map_congr_left
    intro i _
    simp only [Function.comp_apply, Nat.succ_eq_add_one, Ref.mk.injEq]
    omega

/-- The loop does not end within `n` evaluations of its condition when the end
cursor is `n` elements further on. -/
theorem range_for_loop_fuel {T : Type} (n : Nat) :
    ∀ (fuel : Nat) (p : Int), fuel ≤ n →
      range_for_loop fuel (⟨p⟩ : SpanIterator T) ⟨p + n⟩ = none := by
  induction n with
  | zero =>
    intro fuel p hfuel
    obtain rfl : fuel = 0 := by omega
    rfl
  | succ n ih =>
    intro fuel p hfuel
    cases fuel with
    | zero => rfl
    | succ f =>
      have hne : (⟨p⟩ : SpanIterator T).op_ne ⟨p + ((n + 1 : Nat) : Int)⟩ = true := by
        simp only [SpanIterator.op_ne, Bool.not_eq_true', beq_eq_false_iff_ne, ne_eq]
        omega
      have hend : p + ((n + 1 : Nat) : Int) = p + 1 + (n : Int) := by omega
      rw [range_for_loop, if_pos hne, SpanIterator.op_pre_inc, hend, ih f (p + 1) (by omega)]
      rfl

/-- Pre-incrementing a cursor `n` times moves it `n` elements on. -/
theorem op_pre_inc_iterate {T : Type} (n : Nat) (p : Int) :
    (SpanIterator.op_pre_inc^[n] (⟨p⟩ : SpanIterator T)) = ⟨p + n⟩ := by
  induction n with
  | zero => simp
  | succ n ih =>
    rw [Function.iterate_succ_apply', ih, SpanIterator.op_pre_inc]
    simp only [Nat.cast_add, Nat.cast_one, SpanIterator.mk.injEq]
    omega

/-! ## Properties of `span` and `SpanIterator` -/

/-- C1: for every static extent `N` and every contiguous range, constructing a
static-extent-`N` span from the range fails with a length error exactly when the
range is shorter than `N`; when it fails no span is returned, and when the range
has at least `N` elements a span is returned whose `data()` is the base address
of the range. -/
theorem span_ctor_range_static (T : Type) (N : Nat) (hN : N ≠ dynamic_extent)
    (range : contiguous_range T) :
    ((∃ what, span.ctor_range T N range = .error (.length_error what)) ↔ range.size < N) ∧
    (range.size < N → ∀ s, span.ctor_range T N range ≠ .ok s) ∧
    (N ≤ range.size → ∃ s, span.ctor_range T N range = .ok s ∧ s.data = range.data) := by
  by_cases hlt : range.size < N
  · have hgt : N > range.size := hlt
    have hrun : span.ctor_range T N range =
        .error (.length_error "Range size is smaller than static extent -> UB") := by
      simp only [span.ctor_range, dif_pos hN, if_pos hgt]
    refine ⟨⟨fun _ => hlt, fun _ => ⟨_, hrun⟩⟩, fun _ s => ?_, fun hle => absurd hlt (by omega)⟩
    rw [hrun]
    exact fun h => nomatch h
  · have hgt : ¬ N > range.size := hlt
    have hrun : span.ctor_range T N range = .ok ⟨range.data, .constant hN⟩ := by
      simp only [span.ctor_range, dif_pos hN, if_neg hgt]
    refine ⟨⟨fun ⟨what, hw⟩ => ?_, fun h => absurd h hlt⟩, fun h => absurd h hlt, fun _ => ?_⟩
    · rw [hrun] at hw
      exact nomatch hw
    · exact ⟨_, hrun, rfl⟩

/-- C1, at `N = 3`: construction from the three-element array `[1, 2, 3]`
returns a span at the base of the array, and construction from the two-element
array `[1, 2]` fails with a length error. -/
theorem span_ctor_range_static_witness :
    (3 ≠ dynamic_extent) ∧
    (∃ s, span.ctor_range Nat 3 ⟨1000, [1, 2, 3]⟩ = .ok s ∧ s.data = 1000) ∧
    (∃ what, span.ctor_range Nat 3 ⟨1000, [1, 2]⟩ = .error (.length_error what)) :=
  ⟨by decide,
   (span_ctor_range_static Nat 3 (by decide) ⟨1000, [1, 2, 3]⟩).2.2 (by decide),
   (span_ctor_range_static Nat 3 (by decide) ⟨1000, [1, 2]⟩).1.mpr (by decide)⟩

/-- C2: for every contiguous range, constructing a dynamic-extent span from it
returns a span (it never fails) whose `size()` is the element count of the range
and whose `data()` is the base address of the range, so that `data()` points at
the first element of the range; for the vector `[1, 2, 3, 4, 5]` the size is 5
and `data()` points at the element 1. -/
theorem span_ctor_range_dynamic (T : Type) (range : contiguous_range T) :
    (∃ s, span.ctor_range T dynamic_extent range = .ok s ∧
      s.size = range.size ∧ s.data = range.data ∧
      range.memory s.data = range.elems[0]?) ∧
    (∃ s, span.ctor_range Nat dynamic_extent ⟨1000, [1, 2, 3, 4, 5]⟩ = .ok s ∧
      s.size = 5 ∧ s.data = 1000 ∧
      (contiguous_range.memory ⟨1000, [1, 2, 3, 4, 5]⟩ : Memory Nat) s.data = some 1) := by
  have key : ∀ r : contiguous_range T, ∃ s, span.ctor_range T dynamic_extent r = .ok s ∧
      s.size = r.size ∧ s.data = r.data := by
    intro r
    refine ⟨⟨r.data, .runtime rfl r.size⟩, ?_, size_runtime _ _, rfl⟩
    simp [span.ctor_range]
  refine ⟨?_, ?_⟩
  · obtain ⟨s, hs, hsize, hdata⟩ := key range
    refine ⟨s, hs, hsize, hdata, ?_⟩
    rw [hdata]
    have h := memory_at range 0
    simp only [Nat.cast_zero, add_zero] at h
    rw [contiguous_range.data, h]
  · refine ⟨⟨1000, .runtime rfl 5⟩, ?_, size_runtime _ _, rfl, ?_⟩
    · simp [span.ctor_range, contiguous_range.data, contiguous_range.size]
    · simp [span.data, contiguous_range.memory]

/-- C3: for every cursor at address `base` and every count `length`, the
dynamic-extent span constructed from the cursor and the count has `size()` equal
to `length` and `data()` equal to `base`. -/
theorem span_ctor_first_count (T : Type) (base : Int) (length : Nat) :
    (span.ctor_first_count T ⟨base⟩ length).size = length ∧
    (span.ctor_first_count T ⟨base⟩ length).data = base :=
  ⟨size_runtime _ _, rfl⟩

/-- C4: for two cursors at positions `a ≤ b` of the same contiguous storage, the
dynamic-extent span constructed from the pair has `data()` at the first cursor
and `size()` equal to their distance `b - a`, and it views exactly the elements
at positions `a, ..., b - 1`: `s[k]` is the element at position `a + k`, and
for a non-empty view `front()` is the element at the first cursor and `back()`
the element just before the second.  The element count of the storage is a
`std::size_t` value, as `size()` returns it. -/
theorem span_ctor_first_end (T : Type) (range : contiguous_range T) (a b : Nat)
    (hsz : range.size < 2 ^ 64) (hab : a ≤ b) (hb : b ≤ range.size) :
    (span.ctor_first_end T (range.cursor_at a) (range.cursor_at b)).data
      = (range.cursor_at a).addr ∧
    ((span.ctor_first_end T (range.cursor_at a) (range.cursor_at b)).size : Int)
      = (range.cursor_at b).addr - (range.cursor_at a).addr ∧
    (span.ctor_first_end T (range.cursor_at a) (range.cursor_at b)).size = b - a ∧
    (∀ k, k < b - a →
      (span.ctor_first_end T (range.cursor_at a) (range.cursor_at b)).op_index k
        = ⟨(range.cursor_at (a + k)).addr⟩ ∧
      a + k < range.elems.length ∧
      ((span.ctor_first_end T (range.cursor_at a) (range.cursor_at b)).op_index k).read
        range.memory = range.elems[a + k]?) ∧
    (a < b →
      (span.ctor_first_end T (range.cursor_at a) (range.cursor_at b)).front
        = ⟨(range.cursor_at a).addr⟩ ∧
      (span.ctor_first_end T (range.cursor_at a) (range.cursor_at b)).back
        = ⟨(range.cursor_at b).addr - 1⟩ ∧
      (span.ctor_first_end T (range.cursor_at a) (range.cursor_at b)).front.read range.memory
        = range.elems[a]? ∧
      (span.ctor_first_end T (range.cursor_at a) (range.cursor_at b)).back.read range.memory
        = range.elems[b - 1]?) := by
  have hdist : range.base + (b : Int) - (range.base + (a : Int)) = ((b - a : Nat) : Int) := by
    omega
  have hsize : (span.ctor_first_end T (range.cursor_at a) (range.cursor_at b)).size = b - a := by
    unfold span.ctor_first_end
    rw [size_runtime]
    simp only [contiguous_iterator.op_diff, contiguous_range.cursor_at]
    rw [to_size_t_to_ptrdiff_t, hdist]
    have h := to_size_t_of_fits ((b - a : Nat) : Int) (by omega) (by omega)
    exact_mod_cast h
  refine ⟨rfl, ?_, hsize, fun k hk => ⟨?_, ?_, ?_⟩, fun hlt => ⟨rfl, ?_, ?_, ?_⟩⟩
  · rw [hsize]
    simp only [contiguous_range.cursor_at]
    omega
  · simp only [span.op_index, span.ctor_first_end, contiguous_range.cursor_at, to_address]
    congr 1
    push_cast
    ring
  · have : range.size = range.elems.length := rfl
    omega
  · simp only [span.op_index, span.ctor_first_end, contiguous_range.cursor_at, to_address,
      Ref.read]
    rw [add_assoc, ← Nat.cast_add, memory_at]
  · simp only [span.back, hsize]
    simp only [span.ctor_first_end, contiguous_range.cursor_at, to_address]
    congr 1
    omega
  · simp only [span.front, span.ctor_first_end, contiguous_range.cursor_at, to_address,
      Ref.read]
    rw [memory_at]
  · simp only [span.back, hsize, Ref.read]
    simp only [span.ctor_first_end, contiguous_range.cursor_at, to_address]
    have h : range.base + (a : Int) + ((b - a : Nat) : Int) - 1
        = range.base + ((b - 1 : Nat) : Int) := by omega
    rw [h, memory_at]

/-- C4, on the storage `[1, 2, 3, 4, 5]` with cursors at positions 1 and 4: the
view is `[2, 3, 4]`, its size is 3, `front()` is 2 and `back()` is 4. -/
theorem span_ctor_first_end_witness :
    (contiguous_range.mk 1000 [1, 2, 3, 4, 5] : contiguous_range Nat).size < 2 ^ 64 ∧ 1 ≤ 4 ∧
    4 ≤ (contiguous_range.mk 1000 [1, 2, 3, 4, 5] : contiguous_range Nat).size ∧
    (span.ctor_first_end Nat ⟨1001⟩ ⟨1004⟩).size = 3 ∧
    (span.ctor_first_end Nat ⟨1001⟩ ⟨1004⟩).front.read
      (contiguous_range.memory ⟨1000, [1, 2, 3, 4, 5]⟩) = some 2 ∧
    (span.ctor_first_end Nat ⟨1001⟩ ⟨1004⟩).back.read
      (contiguous_range.memory ⟨1000, [1, 2, 3, 4, 5]⟩) = some 4 ∧
    ((span.ctor_first_end Nat ⟨1001⟩ ⟨1004⟩).op_index 0).read
      (contiguous_range.memory ⟨1000, [1, 2, 3, 4, 5]⟩) = some 2 ∧
    ((span.ctor_first_end Nat ⟨1001⟩ ⟨1004⟩).op_index 1).read
      (contiguous_range.memory ⟨1000, [1, 2, 3, 4, 5]⟩) = some 3 ∧
    ((span.ctor_first_end Nat ⟨1001⟩ ⟨1004⟩).op_index 2).read
      (contiguous_range.memory ⟨1000, [1, 2, 3, 4, 5]⟩) = some 4 := by
  have h := span_ctor_first_end Nat ⟨1000, [1, 2, 3, 4, 5]⟩ 1 4 (by decide) (by decide)
    (by decide)
  have hview := h.2.2.2.1
  exact ⟨by decide, by decide, by decide, h.2.2.1, (h.2.2.2.2 (by decide)).2.2.1,
    (h.2.2.2.2 (by decide)).2.2.2, (hview 0 (by decide)).2.2, (hview 1 (by decide)).2.2,
    (hview 2 (by decide)).2.2⟩

/-- C5: for every span with `size() > 0` over storage holding the elements
`e 0, ..., e (size() - 1)`: `front()` refers to `e 0`, `back()` refers to
`e (size() - 1)`, and for every index `i < size()` the indexed access `s[i]`
refers to the same element as dereferencing `begin() + i`, namely `e i`. -/
theorem span_front_back_index (T : Type) (Extent : Nat) (s : span T Extent) (m : Memory T)
    (e : Nat → T) (hpos : 0 < s.size)
    (hlive : ∀ i, i < s.size → m (s.data + i) = some (e i)) :
    s.front = ⟨s.data⟩ ∧ s.front.read m = some (e 0) ∧
    s.back = ⟨s.data + ((s.size - 1 : Nat) : Int)⟩ ∧ s.back.read m = some (e (s.size - 1)) ∧
    (∀ i, i < s.size →
      s.op_index i = (s.begin.op_plus i).ret.op_deref ∧
      (s.op_index i).read m = some (e i) ∧
      (s.begin.op_plus i).ret.op_deref.read m = some (e i)) := by
  have hback : s.ptr_ + (s.size : Int) - 1 = s.data + ((s.size - 1 : Nat) : Int) := by
    simp only [span.data]
    omega
  refine ⟨rfl, ?_, ?_, ?_, fun i hi => ⟨rfl, hlive i hi, hlive i hi⟩⟩
  · have h := hlive 0 hpos
    simpa [span.front, Ref.read, span.data] using h
  · simp only [span.back, hback]
  · simp only [span.back, hback, Ref.read]
    exact hlive (s.size - 1) (by omega)

/-- C5, over the storage `[1, 2, 3, 4, 5]`: `front()` is 1, `back()` is 5 and
`s[2]` is 3. -/
theorem span_front_back_index_witness :
    0 < (span.ctor_first_count Nat ⟨1000⟩ 5).size ∧
    (span.ctor_first_count Nat ⟨1000⟩ 5).front.read
      (contiguous_range.memory ⟨1000, [1, 2, 3, 4, 5]⟩) = some 1 ∧
    (span.ctor_first_count Nat ⟨1000⟩ 5).back.read
      (contiguous_range.memory ⟨1000, [1, 2, 3, 4, 5]⟩) = some 5 ∧
    ((span.ctor_first_count Nat ⟨1000⟩ 5).op_index 2).read
      (contiguous_range.memory ⟨1000, [1, 2, 3, 4, 5]⟩) = some 3 ∧
    ((span.ctor_first_count Nat ⟨1000⟩ 5).begin.op_plus 2).ret.op_deref.read
      (contiguous_range.memory ⟨1000, [1, 2, 3, 4, 5]⟩) = some 3 := by
  have h := span_front_back_index Nat dynamic_extent (span.ctor_first_count Nat ⟨1000⟩ 5)
    (contiguous_range.memory ⟨1000, [1, 2, 3, 4, 5]⟩) (fun i => [1, 2, 3, 4, 5].getD i 0)
    (by decide) (by decide)
  exact ⟨by decide, h.2.1, h.2.2.2.1, (h.2.2.2.2 2 (by decide)).2.1,
    (h.2.2.2.2 2 (by decide)).2.2⟩

/-- C6: for every span, of dynamic or of static extent and also when it is
empty, the cursor difference `end() - begin()` equals `size()`: compared with
`size()` as a `std::size_t` it is equal to it for every span, and it is the same
integer as `size()` whenever `size()` is a value of `difference_type` (at most
`PTRDIFF_MAX`, as the length of every array is).  The length of the span is a
`std::size_t` value, as `size()` returns it. -/
theorem span_end_minus_begin (T : Type) (Extent : Nat) (s : span T Extent)
    (hsz : s.size < 2 ^ 64) :
    to_size_t (s.end_.op_diff s.begin) = s.size ∧
    ((s.size : Int) ≤ PTRDIFF_MAX → s.end_.op_diff s.begin = s.size) := by
  have hdist : s.ptr_ + (s.size : Int) - s.ptr_ = s.size := by omega
  simp only [SpanIterator.op_diff, span.end_, span.begin, hdist]
  refine ⟨?_, fun hfit => ?_⟩
  · rw [to_size_t_to_ptrdiff_t]
    have h := to_size_t_of_fits (s.size : Int) (by omega) (by omega)
    exact_mod_cast h
  · exact to_ptrdiff_t_of_fits _ (by unfold PTRDIFF_MIN; omega) hfit

/-- C6, on a dynamic-extent span of five elements, on a static-extent span of
three elements, and on the empty span. -/
theorem span_end_minus_begin_witness :
    ((span.ctor_first_count Nat ⟨1000⟩ 5).size < 2 ^ 64 ∧
      (span.ctor_first_count Nat ⟨1000⟩ 5).end_.op_diff
        (span.ctor_first_count Nat ⟨1000⟩ 5).begin = 5) ∧
    ((span.mk 1000 (.constant (by decide)) : span Nat 3).size < 2 ^ 64 ∧
      (span.mk 1000 (.constant (by decide)) : span Nat 3).end_.op_diff
        (span.mk 1000 (.constant (by decide)) : span Nat 3).begin = 3) ∧
    ((span.ctor_first_count Nat ⟨0⟩ 0).size < 2 ^ 64 ∧
      (span.ctor_first_count Nat ⟨0⟩ 0).end_.op_diff
        (span.ctor_first_count Nat ⟨0⟩ 0).begin = 0) :=
  ⟨⟨by decide, (span_end_minus_begin Nat dynamic_extent _ (by decide)).2 (by decide)⟩,
   ⟨by decide, (span_end_minus_begin Nat 3 _ (by decide)).2 (by decide)⟩,
   ⟨by decide, (span_end_minus_begin Nat dynamic_extent _ (by decide)).2 (by decide)⟩⟩

/-- C7: for every span of length `L` over storage holding the elements `es`,
the range-based `for` loop (start at `begin()`, dereference, pre-increment, stop
when the cursor equals `end()`) ends, after exactly `L` dereferences, at the
elements `s[0], ..., s[L - 1]` in this order, whose values are `es`; it ends at
the evaluation `L + 1` of its condition and not before. -/
theorem range_for_yields (T : Type) (Extent : Nat) (s : span T Extent) (m : Memory T)
    (es : List T) (hlen : es.length = s.size)
    (hlive : ∀ i, i < s.size → m (s.data + i) = es[i]?) :
    (∀ fuel, s.size < fuel →
      ∃ refs, range_for fuel s = some refs ∧ refs.length = s.size ∧
        refs = (List.range s.size).map (fun i => s.op_index i) ∧
        refs.map (Ref.read m) = es.map some) ∧
    (∀ fuel, fuel ≤ s.size → range_for fuel s = none) := by
  refine ⟨fun fuel hfuel => ⟨_, range_for_loop_trace s.size fuel s.ptr_ hfuel, ?_, rfl, ?_⟩,
    fun fuel hfuel => range_for_loop_fuel s.size fuel s.ptr_ hfuel⟩
  · simp
  · apply List.ext_getElem?
    intro i
    by_cases hi : i < s.size
    · have hes : i < es.length := by omega
      have := hlive i hi
      simp only [span.data] at this
      simp [List.getElem?_range hi, Ref.read, this, List.getElem?_eq_getElem hes]
    · have hes : es.length ≤ i := by omega
      have hr : (List.range s.size)[i]? = none := by
        simp only [List.getElem?_eq_none_iff, List.length_range]
        omega
      simp [hr, List.getElem?_eq_none_iff.mpr hes]

/-- C7, over the storage `[1, 2, 3, 4, 5]`: the span that `main` constructs from
the vector is traversed in five dereferences, which yield 1, 2, 3, 4, 5. -/
theorem range_for_yields_witness :
    ∃ s, span.ctor_range Nat dynamic_extent ⟨1000, [1, 2, 3, 4, 5]⟩ = .ok s ∧
      [1, 2, 3, 4, 5].length = s.size ∧
      (∀ i, i < s.size →
        (contiguous_range.memory ⟨1000, [1, 2, 3, 4, 5]⟩ : Memory Nat) (s.data + i)
          = [1, 2, 3, 4, 5][i]?) ∧
      ∃ refs, range_for 6 s = some refs ∧ refs.length = 5 ∧
        refs.map (Ref.read (contiguous_range.memory ⟨1000, [1, 2, 3, 4, 5]⟩))
          = [some 1, some 2, some 3, some 4, some 5] := by
  have hlive : ∀ i, i < (span.mk 1000 (.runtime rfl 5) : span Nat dynamic_extent).size →
      (contiguous_range.memory ⟨1000, [1, 2, 3, 4, 5]⟩ : Memory Nat)
        ((span.mk 1000 (.runtime rfl 5) : span Nat dynamic_extent).data + i)
        = [1, 2, 3, 4, 5][i]? := by
    intro i _
    exact memory_at ⟨1000, [1, 2, 3, 4, 5]⟩ i
  obtain ⟨refs, hrun, hcount, _, hvalues⟩ :=
    (range_for_yields Nat dynamic_extent ⟨1000, .runtime rfl 5⟩
      (contiguous_range.memory ⟨1000, [1, 2, 3, 4, 5]⟩) [1, 2, 3, 4, 5] (by decide) hlive).1 6
      (by decide)
  exact ⟨⟨1000, .runtime rfl 5⟩, by simp [span.ctor_range, contiguous_range.data,
    contiguous_range.size], by decide, hlive, refs, hrun, hcount, hvalues⟩

/-- C8: for every span of length `L`, in particular for `L ≥ 2`, applying
pre-increment `L` times to a cursor that starts as `begin()` yields a cursor
that compares equal to `end()`. -/
theorem span_begin_pre_inc_size (T : Type) (Extent : Nat) (s : span T Extent) :
    (SpanIterator.op_pre_inc^[s.size] s.begin).op_eq s.end_ = true := by
  simp only [span.begin, op_pre_inc_iterate, span.end_, SpanIterator.op_eq, beq_self_eq_true]

/-- C9: for every span and every offset `n`, in particular for `0 ≤ n ≤ L`,
`(begin() + n) - n` compares equal to `begin()`; each binary operator works on a
copy, so the cursor it is called on has the same value afterwards. -/
theorem span_begin_plus_minus (T : Type) (Extent : Nat) (s : span T Extent) (n : Int) :
    ((s.begin.op_plus n).ret.op_minus n).ret.op_eq s.begin = true ∧
    (s.begin.op_plus n).self = s.begin ∧
    ((s.begin.op_plus n).ret.op_minus n).self = (s.begin.op_plus n).ret := by
  refine ⟨?_, rfl, rfl⟩
  simp [SpanIterator.op_plus, SpanIterator.op_minus, SpanIterator.op_plus_assign,
    SpanIterator.op_minus_assign, SpanIterator.op_eq]

/-- C10: for every cursor `c` and every signed offset `n`, the indexed access
`c[n]` refers to the same element as dereferencing the cursor `c + n`, as the
specification words it, so that both read the same value, whenever `c + n` lies
on a live element in particular; and the access leaves `c` unchanged. -/
theorem cursor_index_refines (T : Type) (c : SpanIterator T) (n : Int) (m : Memory T) :
    (c.op_index n).ret = c.op_index_spec n ∧
    (c.op_index n).ret = (c.op_plus n).ret.op_deref ∧
    (c.op_index n).ret.read m = (c.op_plus n).ret.op_deref.read m ∧
    (∀ v, m (c.op_plus n).ret.currentPtr_ = some v → (c.op_index n).ret.read m = some v) ∧
    (c.op_index n).self = c ∧ (c.op_plus n).self = c :=
  ⟨rfl, rfl, rfl, fun _ hv => hv, rfl, rfl⟩

/-- C11: for every two cursors `a` and `b`, `a == b` is true exactly when they
hold the same address, and `a != b` is the negation of `a == b`; hence `==` is
reflexive, symmetric and transitive. -/
theorem cursor_eq_iff_same_address (T : Type) (a b : SpanIterator T) :
    (a.op_eq b = true ↔ a.currentPtr_ = b.currentPtr_) ∧
    a.op_ne b = !(a.op_eq b) ∧
    a.op_eq a = true ∧
    (a.op_eq b = true → b.op_eq a = true) ∧
    (∀ c : SpanIterator T, a.op_eq b = true → b.op_eq c = true → a.op_eq c = true) := by
  refine ⟨by simp [SpanIterator.op_eq], rfl, by simp [SpanIterator.op_eq], ?_, ?_⟩
  · simp only [SpanIterator.op_eq, beq_iff_eq]
    exact fun h => h.symm
  · intro c
    simp only [SpanIterator.op_eq, beq_iff_eq]
    exact fun h1 h2 => h1.trans h2

/-- C12, as stated, fails: the span over the first three elements of a storage
at 1000 and the span over its next two elements are different spans, yet
`end()` of the first and `begin()` of the second compare equal; and the spans
of three and of five elements over the same storage are different spans whose
`begin()` cursors compare equal. -/
theorem cursor_compare_distinct_spans_counterexample :
    (span.ctor_first_count Nat ⟨1000⟩ 3).data ≠ (span.ctor_first_count Nat ⟨1003⟩ 2).data ∧
    (span.ctor_first_count Nat ⟨1000⟩ 3).end_.op_eq
      (span.ctor_first_count Nat ⟨1003⟩ 2).begin = true ∧
    (span.ctor_first_count Nat ⟨1000⟩ 3).end_.op_ne
      (span.ctor_first_count Nat ⟨1003⟩ 2).begin = false ∧
    (span.ctor_first_count Nat ⟨1000⟩ 3).size ≠ (span.ctor_first_count Nat ⟨1000⟩ 5).size ∧
    (span.ctor_first_count Nat ⟨1000⟩ 3).begin.op_eq
      (span.ctor_first_count Nat ⟨1000⟩ 5).begin = true ∧
    (span.ctor_first_count Nat ⟨1000⟩ 3).begin.op_ne
      (span.ctor_first_count Nat ⟨1000⟩ 5).begin = false := by
  decide

/-- C12, amended: comparing two cursors derived from two different spans is
well-defined, `==` and `!=` returning opposite truth values, and compares the
addresses: the cursors at positions `i` and `j` of the two spans are reported
unequal whenever the address ranges of the spans, one-past-the-end positions
included, are disjoint, and in general exactly when their addresses differ. -/
theorem cursor_compare_distinct_spans (T : Type) (E1 E2 : Nat) (s1 : span T E1)
    (s2 : span T E2) (i j : Nat) (hi : i ≤ s1.size) (hj : j ≤ s2.size)
    (hdisjoint : s1.data + s1.size < s2.data ∨ s2.data + s2.size < s1.data) :
    (s1.begin.op_plus i).ret.op_eq (s2.begin.op_plus j).ret = false ∧
    (s1.begin.op_plus i).ret.op_ne (s2.begin.op_plus j).ret = true ∧
    (∀ a b : SpanIterator T, a.op_ne b = !(a.op_eq b)) ∧
    (∀ a b : SpanIterator T, a.op_eq b = false ↔ a.currentPtr_ ≠ b.currentPtr_) := by
  have hne : s1.ptr_ + (i : Int) ≠ s2.ptr_ + (j : Int) := by
    simp only [span.data] at hdisjoint
    omega
  refine ⟨?_, ?_, fun _ _ => rfl, fun a b => by simp [SpanIterator.op_eq]⟩
  · simpa [SpanIterator.op_plus, SpanIterator.op_plus_assign, SpanIterator.op_eq, span.begin]
      using hne
  · simpa [SpanIterator.op_plus, SpanIterator.op_plus_assign, SpanIterator.op_ne, span.begin]
      using hne

/-- C12, amended, on the span over three elements at 1000 and the span over two
elements at 2000: `end()` of the first and `begin()` of the second are unequal. -/
theorem cursor_compare_distinct_spans_witness :
    3 ≤ (span.ctor_first_count Nat ⟨1000⟩ 3).size ∧
    0 ≤ (span.ctor_first_count Nat ⟨2000⟩ 2).size ∧
    ((span.ctor_first_count Nat ⟨1000⟩ 3).data + (span.ctor_first_count Nat ⟨1000⟩ 3).size
        < (span.ctor_first_count Nat ⟨2000⟩ 2).data ∨
      (span.ctor_first_count Nat ⟨2000⟩ 2).data + (span.ctor_first_count Nat ⟨2000⟩ 2).size
        < (span.ctor_first_count Nat ⟨1000⟩ 3).data) ∧
    ((span.ctor_first_count Nat ⟨1000⟩ 3).begin.op_plus 3).ret.op_eq
      ((span.ctor_first_count Nat ⟨2000⟩ 2).begin.op_plus 0).ret = false ∧
    ((span.ctor_first_count Nat ⟨1000⟩ 3).begin.op_plus 3).ret.op_ne
      ((span.ctor_first_count Nat ⟨2000⟩ 2).begin.op_plus 0).ret = true :=
  have h := cursor_compare_distinct_spans Nat dynamic_extent dynamic_extent
    (span.ctor_first_count Nat ⟨1000⟩ 3) (span.ctor_first_count Nat ⟨2000⟩ 2) 3 0
    (by decide) (by decide) (by decide)
  ⟨by decide, by decide, by decide, h.1, h.2.1⟩

/-- C13: cursor subtraction returns the signed element distance: for every span
whose length is a value of `difference_type` and all positions `i, j` with
`0 ≤ i, j ≤ size()`, `(begin() + i) - (begin() + j)` is the integer `i - j`,
negative when `i < j`; with `a = begin() + i`, `b = begin() + j` and `n = i - j`
this gives `(b + n) - b == n` and `b + (a - b) == a`; and `(c + n) - c == n`
for every cursor `c` and every `difference_type` value `n`. -/
theorem cursor_difference (T : Type) (Extent : Nat) (s : span T Extent) (i j : Nat)
    (hi : i ≤ s.size) (hj : j ≤ s.size) (hfit : (s.size : Int) ≤ PTRDIFF_MAX) :
    (s.begin.op_plus i).ret.op_diff (s.begin.op_plus j).ret = (i : Int) - j ∧
    (i < j → (s.begin.op_plus i).ret.op_diff (s.begin.op_plus j).ret < 0) ∧
    ((s.begin.op_plus j).ret.op_plus ((i : Int) - j)).ret.op_diff (s.begin.op_plus j).ret
      = (i : Int) - j ∧
    ((s.begin.op_plus j).ret.op_plus
      ((s.begin.op_plus i).ret.op_diff (s.begin.op_plus j).ret)).ret.op_eq
        (s.begin.op_plus i).ret = true ∧
    (∀ (c : SpanIterator T) (n : Int), PTRDIFF_MIN ≤ n → n ≤ PTRDIFF_MAX →
      (c.op_plus n).ret.op_diff c = n) := by
  have hmax : (s.size : Int) ≤ 2 ^ 63 - 1 := hfit
  have hlo : PTRDIFF_MIN ≤ (i : Int) - j := by unfold PTRDIFF_MIN; omega
  have hhi : (i : Int) - j ≤ PTRDIFF_MAX := by unfold PTRDIFF_MAX; omega
  have hdist : ∀ (p n : Int), p + n - p = n := fun p n => by omega
  have hdiff : (s.begin.op_plus i).ret.op_diff (s.begin.op_plus j).ret = (i : Int) - j := by
    simp only [SpanIterator.op_plus, SpanIterator.op_plus_assign, SpanIterator.op_diff,
      span.begin]
    have h : s.ptr_ + (i : Int) - (s.ptr_ + (j : Int)) = (i : Int) - j := by omega
    rw [h]
    exact to_ptrdiff_t_of_fits _ hlo hhi
  refine ⟨hdiff, fun hlt => ?_, ?_, ?_, fun c n hn1 hn2 => ?_⟩
  · rw [hdiff]
    omega
  · simp only [SpanIterator.op_plus, SpanIterator.op_plus_assign, SpanIterator.op_diff, hdist]
    exact to_ptrdiff_t_of_fits _ hlo hhi
  · rw [hdiff]
    simp only [SpanIterator.op_plus, SpanIterator.op_plus_assign, SpanIterator.op_eq,
      span.begin, beq_iff_eq]
    omega
  · simp only [SpanIterator.op_plus, SpanIterator.op_plus_assign, SpanIterator.op_diff, hdist]
    exact to_ptrdiff_t_of_fits _ hn1 hn2

/-- C13, on a span of five elements: `(begin() + 1) - (begin() + 4)` is `-3` and
`(begin() + 4) - (begin() + 1)` is `3`. -/
theorem cursor_difference_witness :
    1 ≤ (span.ctor_first_count Nat ⟨1000⟩ 5).size ∧
    4 ≤ (span.ctor_first_count Nat ⟨1000⟩ 5).size ∧
    ((span.ctor_first_count Nat ⟨1000⟩ 5).size : Int) ≤ PTRDIFF_MAX ∧
    ((span.ctor_first_count Nat ⟨1000⟩ 5).begin.op_plus 1).ret.op_diff
      ((span.ctor_first_count Nat ⟨1000⟩ 5).begin.op_plus 4).ret = -3 ∧
    ((span.ctor_first_count Nat ⟨1000⟩ 5).begin.op_plus 4).ret.op_diff
      ((span.ctor_first_count Nat ⟨1000⟩ 5).begin.op_plus 1).ret = 3 :=
  ⟨by decide, by decide, by decide,
   (cursor_difference Nat dynamic_extent (span.ctor_first_count Nat ⟨1000⟩ 5) 1 4
      (by decide) (by decide) (by decide)).1,
   (cursor_difference Nat dynamic_extent (span.ctor_first_count Nat ⟨1000⟩ 5) 4 1
      (by decide) (by decide) (by decide)).1⟩

/-- C14: for every static extent `N`, every static-extent-`N` span has `size()`
equal to `N`, whichever constructor produced it and whatever its arguments were:
the member `size_` of such a span holds no data, so two such spans, over
different storage or built from ranges of different lengths, report the same
size. -/
theorem span_size_static_extent (T : Type) (N : Nat) (hN : N ≠ dynamic_extent) :
    (∀ s : span T N, s.size = N) ∧
    (∀ s1 s2 : span T N, s1.size = s2.size) ∧
    (∀ f1 f2 : size_field N, f1 = f2) ∧
    (∀ (first : contiguous_iterator T) (indeterminate : Nat),
      (span.ctor_first T N first indeterminate).size = N) ∧
    (∀ (range : contiguous_range T) (s : span T N),
      span.ctor_range T N range = .ok s → s.size = N) := by
  refine ⟨size_static hN, fun s1 s2 => ?_, fun f1 f2 => ?_, fun _ _ => size_static hN _,
    fun _ s _ => size_static hN s⟩
  · rw [size_static hN s1, size_static hN s2]
  · cases f1 with
    | runtime h _ => exact absurd h hN
    | constant _ =>
      cases f2 with
      | runtime h _ => exact absurd h hN
      | constant _ => rfl

/-- C14, at `N = 3`: the spans constructed from the three-element range at 1000
and from the five-element range at 2000 both have size 3. -/
theorem span_size_static_extent_witness :
    3 ≠ dynamic_extent ∧
    ∃ s1 s2 : span Nat 3,
      span.ctor_range Nat 3 ⟨1000, [1, 2, 3]⟩ = .ok s1 ∧
      span.ctor_range Nat 3 ⟨2000, [1, 2, 3, 4, 5]⟩ = .ok s2 ∧
      s1.data ≠ s2.data ∧ s1.size = 3 ∧ s2.size = 3 ∧ s1.size = s2.size := by
  have h := span_size_static_extent Nat 3 (by decide)
  exact ⟨by decide, ⟨1000, .constant (by decide)⟩, ⟨2000, .constant (by decide)⟩, rfl,
    rfl, by decide, h.1 _, h.1 _, h.2.1 _ _⟩

/-- C15: for a static extent `N` the constructor from a single cursor returns a
span whose `data()` is the address of the cursor and whose `size()` is `N`.  For
the dynamic extent the same constructor is accepted as well, and returns a span
whose `data()` is the address of the cursor and whose `size()` is the value its
uninitialised member `size_` happens to hold. -/
theorem span_ctor_first_any_extent (T : Type) (first : contiguous_iterator T)
    (indeterminate : Nat) :
    (∀ N, N ≠ dynamic_extent →
      (span.ctor_first T N first indeterminate).data = first.addr ∧
      (span.ctor_first T N first indeterminate).size = N) ∧
    (span.ctor_first T dynamic_extent first indeterminate).data = first.addr ∧
    (span.ctor_first T dynamic_extent first indeterminate).size = indeterminate ∧
    (span.ctor_first Nat dynamic_extent ⟨1000⟩ 7).size = 7 ∧
    (span.ctor_first Nat dynamic_extent ⟨1000⟩ 8).size = 8 := by
  refine ⟨fun N hN => ⟨?_, size_static hN _⟩, ?_, ?_, by decide, by decide⟩
  · simp [span.ctor_first, hN, span.data, to_address]
  · simp [span.ctor_first, span.data, to_address]
  · simp [span.ctor_first, span.size]

/-- C16, as stated, fails: the constructor from a cursor and a count, given the
null cursor and the count 5, returns a span whose `data()` is null and whose
`size()` is 5. -/
theorem span_ctor_invariant_counterexample :
    (span.ctor_first_count Nat ⟨0⟩ 5).data = 0 ∧
    (span.ctor_first_count Nat ⟨0⟩ 5).size = 5 ∧
    ¬ (span.ctor_first_count Nat ⟨0⟩ 5).invariant := by
  refine ⟨by decide, by decide, fun h => ?_⟩
  have h5 : (span.ctor_first_count Nat ⟨0⟩ 5).size = 0 := h (by decide)
  revert h5
  decide

/-- C16, amended: the constructors check nothing about their start address, and
a span they produce satisfies the invariant that `data()` is null only if
`size()` is 0 when its arguments do: the form from a cursor and a count when the
cursor is null only with the count 0, the form from two cursors when the first
is null only if the second is, the form from a single cursor with a static
extent `N` when the cursor is null only with `N = 0`, and the form from a range
when `data()` of the range is null only if its `size()` is 0. -/
theorem span_ctor_invariant (T : Type) :
    (∀ (first : contiguous_iterator T) (count : Nat),
      (first.addr = 0 → count = 0) → (span.ctor_first_count T first count).invariant) ∧
    (∀ first end_ : contiguous_iterator T,
      (first.addr = 0 → end_.addr = 0) → (span.ctor_first_end T first end_).invariant) ∧
    (∀ (N : Nat) (first : contiguous_iterator T) (indeterminate : Nat),
      N ≠ dynamic_extent → (first.addr = 0 → N = 0) →
      (span.ctor_first T N first indeterminate).invariant) ∧
    (∀ (Extent : Nat) (range : contiguous_range T) (s : span T Extent),
      (range.data = 0 → range.size = 0) → span.ctor_range T Extent range = .ok s →
      s.invariant) := by
  refine ⟨fun first count h hnull => ?_, fun first end_ h hnull => ?_,
    fun N first g hN h hnull => ?_, fun Extent range s h hrun hnull => ?_⟩
  · rw [span.ctor_first_count, size_runtime]
    exact h hnull
  · have h1 : first.addr = 0 := hnull
    have h2 : end_.addr = 0 := h h1
    rw [span.ctor_first_end, size_runtime, contiguous_iterator.op_diff, h1, h2]
    decide
  · rw [size_static hN]
    apply h
    simpa [span.ctor_first, hN, span.data, to_address] using hnull
  · by_cases hE : Extent ≠ dynamic_extent
    · rw [size_static hE]
      by_cases hgt : Extent > range.size
      · simp only [span.ctor_range, dif_pos hE, if_pos hgt] at hrun
        exact nomatch hrun
      · simp only [span.ctor_range, dif_pos hE, if_neg hgt, Except.ok.injEq] at hrun
        subst hrun
        have := h hnull
        omega
    · have hdyn : Extent = dynamic_extent := Decidable.of_not_not hE
      subst hdyn
      simp only [span.ctor_range, dif_neg hE, Except.ok.injEq] at hrun
      subst hrun
      rw [size_runtime]
      exact h hnull

/-- C16, amended, on arguments that meet the conditions: the null cursor with
the count 0, two null cursors, a cursor at 1000 with the static extent 3, and
the empty range whose `data()` is null. -/
theorem span_ctor_invariant_witness :
    (span.ctor_first_count Nat ⟨0⟩ 0).invariant ∧
    (span.ctor_first_end Nat ⟨0⟩ ⟨0⟩).invariant ∧
    (span.ctor_first Nat 3 ⟨1000⟩ 0).invariant ∧
    (∀ s, span.ctor_range Nat dynamic_extent ⟨0, []⟩ = .ok s → s.invariant) :=
  ⟨(span_ctor_invariant Nat).1 ⟨0⟩ 0 (fun _ => rfl),
   (span_ctor_invariant Nat).2.1 ⟨0⟩ ⟨0⟩ (fun _ => rfl),
   (span_ctor_invariant Nat).2.2.1 3 ⟨1000⟩ 0 (by decide) (fun h => absurd h (by decide)),
   fun s => (span_ctor_invariant Nat).2.2.2 dynamic_extent ⟨0, []⟩ s (fun _ => rfl)⟩

/-- C18: for every static extent `N` and every contiguous range with more than
`N` elements, the static-extent-`N` span constructed from the range views the
first `N` elements of the range only: `s[i]` is element `i` of the range for
`i < N`, `back()` is the element at position `N - 1`, which is not the last
element of the range, and `end() - begin()` is `N` (compared as a `std::size_t`,
and as an integer when `N` is a value of `difference_type`).  The element count
of the range is a `std::size_t` value. -/
theorem span_ctor_range_static_longer (T : Type) (N : Nat) (hN : N ≠ dynamic_extent)
    (range : contiguous_range T) (hlen : N < range.size) (hsz : range.size < 2 ^ 64) :
    ∃ s, span.ctor_range T N range = .ok s ∧ s.size = N ∧
      (∀ i, i < N →
        s.op_index i = ⟨(range.cursor_at i).addr⟩ ∧ i < range.elems.length ∧
        (s.op_index i).read range.memory = range.elems[i]?) ∧
      s.back = ⟨(range.cursor_at N).addr - 1⟩ ∧
      s.back ≠ ⟨(range.cursor_at (range.size - 1)).addr⟩ ∧
      (0 < N → s.back.read range.memory = range.elems[N - 1]?) ∧
      to_size_t (s.end_.op_diff s.begin) = N ∧
      ((N : Int) ≤ PTRDIFF_MAX → s.end_.op_diff s.begin = N) := by
  have hgt : ¬ N > range.size := by omega
  have hrun : span.ctor_range T N range = .ok ⟨range.data, .constant hN⟩ := by
    simp only [span.ctor_range, dif_pos hN, if_neg hgt]
  have hsize : ∀ p : Int, (span.mk p (.constant hN) : span T N).size = N :=
    fun _ => size_static hN _
  have hdist : range.base + (N : Int) - range.base = N := by omega
  refine ⟨_, hrun, hsize _, fun i hi => ⟨rfl, ?_, ?_⟩, ?_, ?_, fun hpos => ?_, ?_,
    fun hfit => ?_⟩
  · have : range.size = range.elems.length := rfl
    omega
  · simp only [span.op_index, contiguous_range.data, Ref.read]
    exact memory_at range i
  · simp only [span.back, hsize, contiguous_range.data, contiguous_range.cursor_at]
  · simp only [span.back, hsize, contiguous_range.data, contiguous_range.cursor_at, ne_eq,
      Ref.mk.injEq]
    omega
  · simp only [span.back, hsize, contiguous_range.data, Ref.read]
    have h : range.base + (N : Int) - 1 = range.base + ((N - 1 : Nat) : Int) := by omega
    rw [h, memory_at]
  · simp only [SpanIterator.op_diff, span.end_, span.begin, hsize, contiguous_range.data, hdist]
    rw [to_size_t_to_ptrdiff_t]
    have h := to_size_t_of_fits (N : Int) (by omega) (by omega)
    exact_mod_cast h
  · simp only [SpanIterator.op_diff, span.end_, span.begin, hsize, contiguous_range.data, hdist]
    exact to_ptrdiff_t_of_fits _ (by unfold PTRDIFF_MIN; omega) hfit

/-- C18, at `N = 3` over the range `[1, 2, 3, 4, 5]`: the span has size 3, its
`back()` reads 3, the element at position 2, and `end() - begin()` is 3. -/
theorem span_ctor_range_static_longer_witness :
    3 ≠ dynamic_extent ∧
    3 < (contiguous_range.mk 1000 [1, 2, 3, 4, 5] : contiguous_range Nat).size ∧
    (contiguous_range.mk 1000 [1, 2, 3, 4, 5] : contiguous_range Nat).size < 2 ^ 64 ∧
    ∃ s, span.ctor_range Nat 3 ⟨1000, [1, 2, 3, 4, 5]⟩ = .ok s ∧ s.size = 3 ∧
      s.back.read (contiguous_range.memory ⟨1000, [1, 2, 3, 4, 5]⟩) = some 3 ∧
      (s.op_index 0).read (contiguous_range.memory ⟨1000, [1, 2, 3, 4, 5]⟩) = some 1 ∧
      s.end_.op_diff s.begin = 3 := by
  obtain ⟨s, hrun, hsize, hview, _, _, hback, _, hdiff⟩ :=
    span_ctor_range_static_longer Nat 3 (by decide) ⟨1000, [1, 2, 3, 4, 5]⟩ (by decide)
      (by decide)
  exact ⟨by decide, by decide, by decide, s, hrun, hsize, hback (by decide),
    (hview 0 (by decide)).2.2, hdiff (by decide)⟩

/-- C19: the constructor from two cursors converts the signed difference
`end - first` to `size_type` without a check: for cursors with `end < first`, at
the element distance `d = first - end > 0` (a distance of two 64-bit addresses,
below `2^64`), it returns a dynamic-extent span at `first` whose `size()` is
`2^64 - d`, which is not 0. -/
theorem span_ctor_first_end_reversed (T : Type) (first end_ : contiguous_iterator T)
    (hlt : end_.addr < first.addr) (hd : first.addr - end_.addr < 2 ^ 64) :
    ((span.ctor_first_end T first end_).size : Int) = 2 ^ 64 - (first.addr - end_.addr) ∧
    (span.ctor_first_end T first end_).size ≠ 0 ∧
    (span.ctor_first_end T first end_).data = first.addr := by
  have hsize : ((span.ctor_first_end T first end_).size : Int)
      = 2 ^ 64 - (first.addr - end_.addr) := by
    rw [span.ctor_first_end, size_runtime, contiguous_iterator.op_diff, to_size_t_to_ptrdiff_t]
    unfold to_size_t
    omega
  refine ⟨hsize, fun h0 => ?_, rfl⟩
  rw [h0] at hsize
  omega

/-- C19, on the storage `[1, 2, 3, 4, 5]` with the cursors at positions 4 and 1
given in reverse: the distance is 3 and the size reported is `2^64 - 3`. -/
theorem span_ctor_first_end_reversed_witness :
    (1001 : Int) < 1004 ∧ (1004 : Int) - 1001 < 2 ^ 64 ∧
    ((span.ctor_first_end Nat ⟨1004⟩ ⟨1001⟩).size : Int) = 2 ^ 64 - (1004 - 1001) ∧
    (span.ctor_first_end Nat ⟨1004⟩ ⟨1001⟩).size ≠ 0 :=
  ⟨by decide, by decide,
   (span_ctor_first_end_reversed Nat ⟨1004⟩ ⟨1001⟩ (by decide) (by decide)).1,
   (span_ctor_first_end_reversed Nat ⟨1004⟩ ⟨1001⟩ (by decide) (by decide)).2.1⟩

/-- C20: the stepping operators agree with offset arithmetic, for every cursor
`c` and all integer offsets `m`, `n`: pre-increment yields `c + 1` and
pre-decrement yields `c - 1`, so that decrementing after incrementing restores
`c`; `c - n` is `c + (-n)`; `c + 0` is `c`; `(c + m) + n` is `c + (m + n)`; and
`+=` and `-=` leave the cursor equal to what `+` and `-` return.  The class
`SpanIterator` of `src/ds/span.hpp` has the same operators, word for word. -/
theorem cursor_stepping (T : Type) (c : SpanIterator T) (m n : Int) :
    c.op_pre_inc = (c.op_plus 1).ret ∧
    c.op_pre_dec = (c.op_minus 1).ret ∧
    c.op_pre_inc.op_pre_dec = c ∧
    (c.op_minus n).ret = (c.op_plus (-n)).ret ∧
    (c.op_plus 0).ret = c ∧
    ((c.op_plus m).ret.op_plus n).ret = (c.op_plus (m + n)).ret ∧
    c.op_plus_assign n = (c.op_plus n).ret ∧
    c.op_minus_assign n = (c.op_minus n).ret := by
  refine ⟨rfl, rfl, ?_, ?_, ?_, ?_, rfl, rfl⟩
  · simp [SpanIterator.op_pre_inc, SpanIterator.op_pre_dec]
  · simp only [SpanIterator.op_minus, SpanIterator.op_minus_assign, SpanIterator.op_plus,
      SpanIterator.op_plus_assign, SpanIterator.mk.injEq]
    omega
  · simp [SpanIterator.op_plus, SpanIterator.op_plus_assign]
  · simp only [SpanIterator.op_plus, SpanIterator.op_plus_assign, SpanIterator.mk.injEq]
    omega

end stdImpl
